import Mathlib

/-!
Shallow embedding of the superdeno `Test` class (src/unnamed/part_000): the
expectation-chaining and response-assertion engine, the completion pipeline
installed by `Test.end`, and base-URL resolution in the constructor.
JavaScript values are modelled by an explicit value universe.  External
collaborators (deep equality via `assertEquals`, `STATUS_TEXT`, `util.inspect`,
the underlying superagent client, `close`) are modelled where noted; everything
else is translated directly from the source.
-/

/-- A JavaScript value, as far as the assertion engine inspects one. -/
inductive JSVal where
  | undefined
  | null
  | bool (b : Bool)
  | num (n : Int)
  | str (s : String)
  | arr (xs : List JSVal)
  | obj (fields : List (String × JSVal))

mutual

/-- JavaScript ToString coercion, as used by template literals and `"" + x`. -/
def jsValToString : JSVal → String
  | .undefined => "undefined"
  | .null => "null"
  | .bool true => "true"
  | .bool false => "false"
  | .num n => toString n
  | .str s => s
  | .arr xs => jsValListToString xs
  | .obj _ => "[object Object]"

/-- Array.prototype.toString joins element renderings with commas; `null` and
`undefined` elements render as the empty string. -/
def jsValListToString : List JSVal → String
  | [] => ""
  | [.undefined] => ""
  | [.null] => ""
  | [x] => jsValToString x
  | .undefined :: y :: xs => "," ++ jsValListToString (y :: xs)
  | .null :: y :: xs => "," ++ jsValListToString (y :: xs)
  | x :: y :: xs => jsValToString x ++ "," ++ jsValListToString (y :: xs)

end

/-- JavaScript `String.prototype.toLowerCase`, character-wise (header names
are ASCII). -/
def lowerCase (s : String) : String := String.mk (s.data.map Char.toLower)

/-- JavaScript `String.prototype.toUpperCase`, character-wise (HTTP methods
are ASCII). -/
def upperCase (s : String) : String := String.mk (s.data.map Char.toUpper)

mutual

/-- Modelled from the spec: deep structural equality over parsed bodies,
standing in for the external `assertEquals` collaborator imported from deps.ts
(out of scope per the spec, assumed correct). -/
def deepEqual : JSVal → JSVal → Bool
  | .undefined, .undefined => true
  | .null, .null => true
  | .bool a, .bool b => a == b
  | .num a, .num b => a == b
  | .str a, .str b => a == b
  | .arr xs, .arr ys => deepEqualList xs ys
  | .obj xs, .obj ys => deepEqualFields xs ys
  | _, _ => false

def deepEqualList : List JSVal → List JSVal → Bool
  | [], [] => true
  | x :: xs, y :: ys => deepEqual x y && deepEqualList xs ys
  | _, _ => false

def deepEqualFields : List (String × JSVal) → List (String × JSVal) → Bool
  | [], [] => true
  | (k, v) :: xs, (k2, v2) :: ys => k == k2 && deepEqual v v2 && deepEqualFields xs ys
  | _, _ => false

end

mutual

/-- Modelled from the spec: value rendering for assertion messages, standing in
for the external `util.inspect` collaborator imported from deps.ts. -/
def inspect : JSVal → String
  | .undefined => "undefined"
  | .null => "null"
  | .bool true => "true"
  | .bool false => "false"
  | .num n => toString n
  | .str s => "\"" ++ s ++ "\""
  | .arr xs => "[ " ++ inspectList xs ++ " ]"
  | .obj fields => "\x7b " ++ inspectFields fields ++ " \x7d"

def inspectList : List JSVal → String
  | [] => ""
  | [x] => inspect x
  | x :: y :: xs => inspect x ++ ", " ++ inspectList (y :: xs)

def inspectFields : List (String × JSVal) → String
  | [] => ""
  | [(k, v)] => k ++ ": " ++ inspect v
  | (k, v) :: y :: xs => k ++ ": " ++ inspect v ++ ", " ++ inspectFields (y :: xs)

end

/-- JavaScript strict equality restricted to the operand shapes that occur in
`#assertBody` (a non-object, non-RegExp expected value against `res.text`).
Distinct object or array literals are never the same reference, so structural
operands compare unequal here. -/
def jsStrictEq : JSVal → JSVal → Bool
  | .undefined, .undefined => true
  | .null, .null => true
  | .bool a, .bool b => a == b
  | .num a, .num b => a == b
  | .str a, .str b => a == b
  | _, _ => false

/-- JavaScript `typeof v === "object"`: true for objects, arrays and null. -/
def typeofIsObject : JSVal → Bool
  | .null => true
  | .arr _ => true
  | .obj _ => true
  | _ => false

/-- A JavaScript RegExp: its source text plus its match behaviour on strings
(the regular-expression engine itself is external). -/
structure RegExpM where
  source : String
  test : String → Bool

/-- Payload of an assertion error: a plain value or a RegExp (identified by its
source text). -/
inductive ErrPayload where
  | val (v : JSVal)
  | pattern (source : String)

/-- A JavaScript Error as the assertion engine produces one: a message, the
optional `expected` / `actual` / `showDiff` properties attached by the module
helper `error`. -/
structure JSError where
  message : String
  expected : Option ErrPayload
  actual : Option ErrPayload
  showDiff : Bool

/-- `new Error(msg)`: no expected/actual payload. -/
def newError (msg : String) : JSError :=
  { message := msg, expected := none, actual := none, showDiff := false }

/-- src (module helper `error`): return an Error with `msg` and results
properties `expected`, `actual`, `showDiff`. -/
def error (msg : String) (expected actual : ErrPayload) : JSError :=
  { message := msg, expected := some expected, actual := some actual, showDiff := true }

/-- The value stored for a response header: superagent stores a string or an
array of strings, keyed by the lower-cased header name. -/
inductive HeaderActual where
  | str (s : String)
  | arr (xs : List String)

/-- The expected value of a header expectation: string, number or RegExp
(the overloads admitted by `expect(field, value)`). -/
inductive HeaderExpected where
  | str (s : String)
  | num (n : Int)
  | pattern (r : RegExpM)

/-- The expected value of a body expectation: a RegExp or any other value. -/
inductive BodyExpected where
  | val (v : JSVal)
  | pattern (r : RegExpM)

/-- What a user predicate produces: an Error instance or any other value. -/
inductive FnResult where
  | errVal (e : JSError)
  | plain (v : JSVal)

/-- How a user predicate behaves when invoked: it returns a result or throws
one. -/
inductive FnBehavior where
  | ret (r : FnResult)
  | throws (r : FnResult)

/-- The superagent response as the assertion engine reads it.  Header names
are stored lower-cased (as superagent and the xhr sham deliver them).
`text` is a JSVal because superagent may leave it undefined. -/
structure JSResponse where
  status : Int
  text : JSVal
  body : JSVal
  headers : List (String × HeaderActual)

/-- One entry of the pending expectation list `#asserts`: the bound private
assertion closures pushed by `Test.expect`, or a raw user predicate. -/
inductive Expectation where
  | status (s : Int)
  | body (b : BodyExpected)
  | header (name : String) (value : HeaderExpected)
  | fn (f : Option JSResponse → FnBehavior)

/-- Modelled from the spec: the external status-code to reason-phrase lookup
(`STATUS_TEXT` from deps.ts, assumed correct); undefined for unknown codes. -/
def STATUS_TEXT (n : Int) : Option String :=
  if n = 200 then some "OK"
  else if n = 201 then some "Created"
  else if n = 204 then some "No Content"
  else if n = 301 then some "Moved Permanently"
  else if n = 400 then some "Bad Request"
  else if n = 404 then some "Not Found"
  else if n = 500 then some "Internal Server Error"
  else none

/-- Template-literal rendering of a possibly-undefined string. -/
def renderReason : Option String → String
  | some s => s
  | none => "undefined"

/-- `res.headers[key]`: property lookup in the header record. -/
def lookupHeader (headers : List (String × HeaderActual)) (key : String) : Option HeaderActual :=
  match headers.find? (fun p => p.fst == key) with
  | some p => some p.snd
  | none => none

/-- Rendering of a header value (`actual.toString()` for arrays joins with
commas). -/
def headerToString : HeaderActual → String
  | .str s => s
  | .arr xs => String.intercalate "," xs

/-- The shortcut check in `#assertHeader`:
`(Array.isArray(actual) && actual.toString() === fieldExpected) || fieldExpected === actual`.
Strict equality between the expected value and the actual holds only for equal
strings; a number or a RegExp is never strictly equal to a string or array. -/
def headerEqShortcut (actual : HeaderActual) (value : HeaderExpected) : Bool :=
  (match actual, value with
   | .arr xs, .str s => String.intercalate "," xs == s
   | _, _ => false) ||
  (match value, actual with
   | .str s, .str t => s == t
   | _, _ => false)

namespace Test

/-- src: `Test.#assertStatus` — note the plain `new Error` carries no
expected/actual payload. -/
def assertStatus (status : Int) (res : JSResponse) : Option JSError :=
  if res.status ≠ status then
    some (newError ("expected " ++ toString status ++ " \"" ++
      renderReason (STATUS_TEXT status) ++ "\", got " ++ toString res.status ++ " \"" ++
      renderReason (STATUS_TEXT res.status) ++ "\""))
  else none

/-- src: `Test.#assertBody`.  A RegExp skips the typeof-object branch and,
never being strictly equal to `res.text`, always reaches the comparison
branch.  All three failure paths build the payload-carrying `error`. -/
def assertBody (body : BodyExpected) (res : JSResponse) : Option JSError :=
  match body with
  | .pattern r =>
      if r.test (jsValToString res.text) then none
      else some (error ("expected body " ++ inspect res.text ++ " to match /" ++ r.source ++ "/")
        (.pattern r.source) (.val res.body))
  | .val v =>
      if typeofIsObject v then
        if deepEqual v res.body then none
        else some (error ("expected " ++ inspect v ++ " response body, got " ++ inspect res.body)
          (.val v) (.val res.body))
      else if jsStrictEq v res.text then none
      else some (error ("expected " ++ inspect v ++ " response body, got " ++ inspect res.text)
        (.val v) (.val res.body))

/-- src: `Test.#assertHeader` — the header name is looked up lower-cased;
a missing header, a failed pattern match, or a failed equality each produce a
plain Error. -/
def assertHeader (name : String) (value : HeaderExpected) (res : JSResponse) : Option JSError :=
  match lookupHeader res.headers (lowerCase name) with
  | none => some (newError ("expected \"" ++ name ++ "\" header field"))
  | some actual =>
      if headerEqShortcut actual value then none
      else
        match value with
        | .pattern r =>
            if r.test (headerToString actual) then none
            else some (newError ("expected \"" ++ name ++ "\" matching /" ++ r.source ++
              "/, got \"" ++ headerToString actual ++ "\""))
        | .str s =>
            some (newError ("expected \"" ++ name ++ "\" of \"" ++ s ++ "\", got \"" ++
              headerToString actual ++ "\""))
        | .num m =>
            some (newError ("expected \"" ++ name ++ "\" of \"" ++ toString m ++ "\", got \"" ++
              headerToString actual ++ "\""))

/-- src: `Test.#assertFunction` — call the function, catching anything thrown;
the outcome fails the assertion exactly when it is an Error instance. -/
def assertFunction (f : Option JSResponse → FnBehavior) (res : Option JSResponse) : Option JSError :=
  match (match f res with
         | .ret r => r
         | .throws r => r) with
  | .errVal e => some e
  | .plain _ => none

/-- Evaluation of one pending entry.  `Test.#assert` routes every entry through
`#assertFunction`; the bound status/body/header closures return an Error or
undefined and never throw when a response is present, so calling them directly
is equivalent.  Against a missing response they dereference `res` and the
resulting TypeError is caught and returned by `#assertFunction`. -/
def runAssert (a : Expectation) (res : Option JSResponse) : Option JSError :=
  match a, res with
  | .fn f, r => assertFunction f r
  | .status s, some r => assertStatus s r
  | .body b, some r => assertBody b r
  | .header n v, some r => assertHeader n v r
  | _, none => some (newError "TypeError: Cannot read properties of undefined")

/-- The loop of `Test.#assert`: walk the pending list while no error is
resolved; also counts how many entries were evaluated. -/
def assertLoop (asserts : List Expectation) (res : Option JSResponse) : Option JSError × Nat :=
  match asserts with
  | [] => (none, 0)
  | a :: rest =>
      match runAssert a res with
      | some e => (some e, 1)
      | none =>
          match assertLoop rest res with
          | (e, n) => (e, n + 1)

/-- The `(error, evaluated-count)` outcome of `Test.#assert`; `error = none`
means the callback receives null. -/
structure AssertOutcome where
  error : Option JSError
  evaluated : Nat

/-- src: `Test.#assert` — the completion-time error tie-break: a transport
error with no response wins immediately (no expectation is evaluated); else
the first failing expectation; else any remaining transport error; else null. -/
def assert (asserts : List Expectation) (resError : Option JSError)
    (res : Option JSResponse) : AssertOutcome :=
  if res.isNone && resError.isSome then
    { error := resError, evaluated := 0 }
  else
    match assertLoop asserts res with
    | (some e, n) => { error := some e, evaluated := n }
    | (none, n) => { error := resError, evaluated := n }

/-- The mutable state of one `Test` instance that `expect` and `end` touch:
the resolved url, the pending expectation list `#asserts`, and the send state
of the underlying client (`endCalled`, plus a count of wire requests sent). -/
structure TestModel where
  url : String
  asserts : List Expectation
  endCalled : Bool
  sentCount : Nat

/-- Modelled from the spec: the underlying client send (superagent
`Request.prototype.end`, re-exported through deps.ts which is not under src/) —
"triggers the underlying client to send the request exactly once (idempotent
if already triggered; a repeated call must not resend)". -/
def superEndSend (t : TestModel) : TestModel :=
  if t.endCalled then t
  else { url := t.url, asserts := t.asserts, endCalled := true, sentCount := t.sentCount + 1 }

/-- src: `Test.end` — installs the settlement continuation and delegates
sending to the underlying client end. -/
def endRequest (t : TestModel) : TestModel :=
  superEndSend t

end Test

/-- One argument of a `Test.expect` call, classified the way the source
type-sniffs it: a function, a number, a string, a RegExp instance, or any
other value. -/
inductive ExpectArg where
  | fn (f : Option JSResponse → FnBehavior)
  | num (n : Int)
  | str (s : String)
  | pattern (r : RegExpM)
  | other (v : JSVal)

/-- `typeof x === "function"` on an optional argument slot. -/
def argIsFn : Option ExpectArg → Bool
  | some (.fn _) => true
  | _ => false

/-- The value bound into `#assertBody` for an argument.  A function argument
never reaches a body expectation (the function overload returns first and the
status branch guards on `typeof b !== "function"`); that case is mapped to
undefined and is unreachable from `expect`. -/
def toBodyExpected : ExpectArg → BodyExpected
  | .num n => .val (.num n)
  | .str s => .val (.str s)
  | .pattern r => .pattern r
  | .other v => .val v
  | .fn _ => .val .undefined

/-- `"" + a`: JavaScript string coercion of the first argument, used for the
header name.  A RegExp renders as its slash-delimited source; a function never
reaches this coercion. -/
def expectArgToString : ExpectArg → String
  | .num n => toString n
  | .str s => s
  | .pattern r => "/" ++ r.source ++ "/"
  | .other v => jsValToString v
  | .fn _ => "function"

/-- The header-field overload test on the second argument:
`typeof b === "string" || typeof b === "number" || b instanceof RegExp`. -/
def headerValue : Option ExpectArg → Option HeaderExpected
  | some (.str s) => some (.str s)
  | some (.num n) => some (.num n)
  | some (.pattern r) => some (.pattern r)
  | _ => none

namespace Test

/-- The second argument `b` of `expect(a, b?, c?)` (`rest` holds the
explicitly passed trailing arguments, so `rest.length + 1 = arguments.length`). -/
def headArg : List ExpectArg → Option ExpectArg
  | [] => none
  | x :: _ => some x

/-- The third argument `c` of `expect(a, b?, c?)`. -/
def secondArg : List ExpectArg → Option ExpectArg
  | _ :: y :: _ => some y
  | _ => none

/-- Push onto the pending expectation list (the `this.#asserts.push` calls);
all other instance state is untouched. -/
def pushAsserts (t : TestModel) (new : List Expectation) : TestModel :=
  { url := t.url, asserts := t.asserts ++ new, endCalled := t.endCalled, sentCount := t.sentCount }

/-- `if (typeof x === "function") this.end(x)`. -/
def maybeEnd (t : TestModel) (arg : Option ExpectArg) : TestModel :=
  if argIsFn arg then endRequest t else t

/-- src: `Test.expect` — overload dispatch.  A function first argument is
pushed raw; otherwise a callback in the second or third position triggers
`end`; a numeric first argument pushes a status expectation plus, when a
second argument position exists and is not a function, a body expectation for
that argument (defined or not); a string/number/RegExp second argument makes a
header expectation; anything else is a body expectation for the first
argument. -/
def expect (t : TestModel) (a : ExpectArg) (rest : List ExpectArg) : TestModel :=
  match a with
  | .fn f => pushAsserts t [.fn f]
  | _ =>
      let b := headArg rest
      let c := secondArg rest
      let t2 := maybeEnd (maybeEnd t b) c
      match a with
      | .num n =>
          if !argIsFn b && !rest.isEmpty then
            pushAsserts t2 [.status n, .body (toBodyExpected (b.getD (.other .undefined)))]
          else
            pushAsserts t2 [.status n]
      | _ =>
          match headerValue b with
          | some hv => pushAsserts t2 [.header (expectArgToString a) hv]
          | none => pushAsserts t2 [.body (toBodyExpected a)]

end Test

/-- The `app` handle accepted by the constructor: a bare address string, an
already-running server (with its bound port), a listenable-but-not-started
server factory (with the port the OS will assign), or anything else. -/
inductive AppHandle where
  | str (addr : String)
  | server (port : Nat)
  | listener (assignedPort : Nat)
  | other

/-- What construction produces: the resolved request url, the upper-cased
method, the zero-redirects policy, whether this instance started (and so owns)
a server, and the ports requested from `listen` (port 0 asks the OS for an
ephemeral port). -/
structure ConstructResult where
  url : String
  method : String
  redirects : Nat
  ownedServer : Bool
  listenRequests : List Nat

/-- `host || "127.0.0.1"`: an absent or empty host falls back to loopback. -/
def hostOrDefault : Option String → String
  | none => "127.0.0.1"
  | some h => if h = "" then "127.0.0.1" else h

namespace Test

/-- src: `Test.#serverAddress` — compose `scheme://host:port/path` from the
bound server address. -/
def serverAddress (port : Nat) (path : String) (host : Option String) (secure : Bool) : String :=
  (if secure then "https" else "http") ++ "://" ++ hostOrDefault host ++ ":" ++
    toString port ++ path

/-- src: `Test.constructor` — resolve the base URL by handle variant: a string
is concatenated with the path; a running server keeps the caller secure flag;
a listener is started on port 0 with secure forced false and is owned by this
instance; anything else throws. -/
def construct (app : AppHandle) (method path : String) (host : Option String)
    (secure : Bool) : Except JSError ConstructResult :=
  match app with
  | .str a =>
      .ok { url := a ++ path, method := upperCase method, redirects := 0,
            ownedServer := false, listenRequests := [] }
  | .server port =>
      .ok { url := serverAddress port path host secure, method := upperCase method,
            redirects := 0, ownedServer := false, listenRequests := [] }
  | .listener assignedPort =>
      .ok { url := serverAddress assignedPort path host false, method := upperCase method,
            redirects := 0, ownedServer := true, listenRequests := [0] }
  | .other =>
      .error (newError "superdeno is unable to identify or create a valid test server")

end Test

/-- The observable steps of the completion pipeline installed by `Test.end`. -/
inductive PipeEvent where
  | response
  | closeServer
  | drain
  | assertStep
  | callback

/-- The outcome of a sequential chunk of the async continuation: the events it
performed and either its value or the error it threw. -/
inductive JsOutcome (α : Type) where
  | ok (events : List PipeEvent) (v : α)
  | thrown (events : List PipeEvent) (e : JSError)

/-- Sequencing of two chunks: a thrown error aborts the rest. -/
def jsSeq {α : Type} : JsOutcome Unit → JsOutcome α → JsOutcome α
  | .ok ev _, .ok ev2 v => .ok (ev ++ ev2) v
  | .ok ev _, .thrown ev2 e => .thrown (ev ++ ev2) e
  | .thrown ev e, _ => .thrown ev e

namespace Test

/-- `await promise` for one outstanding sham transport promise: performs the
drain step and rethrows the promise rejection, if any. -/
def awaitPromise (p : Except JSError Unit) : JsOutcome Unit :=
  match p with
  | .ok _ => .ok [.drain] ()
  | .error e => .thrown [.drain] e

/-- `try { await promise } catch (_) {}` — the rejection is swallowed. -/
def tryIgnore (o : JsOutcome Unit) : JsOutcome Unit :=
  match o with
  | .ok ev _ => .ok ev ()
  | .thrown ev _ => .ok ev ()

/-- The drain loop over `window._xhrSham.promises` in `Test.end`. -/
def drainLoop : List (Except JSError Unit) → JsOutcome Unit
  | [] => .ok [] ()
  | p :: ps => jsSeq (tryIgnore (awaitPromise p)) (drainLoop ps)

/-- Modelled from the spec: `close(server, app, undefined, cont)` (close.ts,
imported but not under src/) — closes any owned server and always runs its
continuation, whether closing succeeded, failed, or was a no-op. -/
def closeIfOwned {α : Type} (cont : JsOutcome α) : JsOutcome α :=
  jsSeq (.ok [.closeServer] ()) cont

/-- What one completion delivers: the ordered event trace, the error and
response handed to the callback, whether the callback ran, and how many
expectations were evaluated. -/
structure Completion where
  trace : List PipeEvent
  cbError : Option JSError
  cbRes : Option JSResponse
  callbackRan : Bool
  evaluated : Nat

/-- src: the settlement continuation installed by `Test.end`: response →
owned-server close → drain of outstanding sham promises (rejections swallowed)
→ `#assert` → callback. -/
def endContinuation (asserts : List Expectation) (resError : Option JSError)
    (res : Option JSResponse) (pending : List (Except JSError Unit)) : Completion :=
  let out := assert asserts resError res
  match jsSeq (.ok [.response] ())
      (closeIfOwned (jsSeq (drainLoop pending) (.ok [.assertStep, .callback] out))) with
  | .ok ev o =>
      { trace := ev, cbError := o.error, cbRes := res, callbackRan := true,
        evaluated := o.evaluated }
  | .thrown ev _ =>
      { trace := ev, cbError := none, cbRes := res, callbackRan := false, evaluated := 0 }

end Test

/-! Concrete sample values used by the witnesses below. -/

/-- A 404 response with text body "nope". -/
def resW : JSResponse :=
  { status := 404, text := JSVal.str "nope", body := JSVal.null, headers := [] }

/-- A 200 response with a json content type header and a parsed object body. -/
def resH : JSResponse :=
  { status := 200, text := JSVal.str "hello world", body := JSVal.obj [("a", JSVal.num 1)],
    headers := [("content-type", HeaderActual.str "application/json")] }

/-- A fresh instance that has not yet sent its request. -/
def t0 : Test.TestModel :=
  { url := "http://127.0.0.1:8080", asserts := [], endCalled := false, sentCount := 0 }

/-- A sample transport error. -/
def terr : JSError := newError "connection refused"

/-! Helper lemmas about the assertion loop. -/

theorem assertLoop_all_pass (res : Option JSResponse) :
    ∀ (l : List Expectation), (∀ a ∈ l, Test.runAssert a res = none) →
      Test.assertLoop l res = (none, l.length) := by
  intro l
  induction l with
  | nil => intro _; rfl
  | cons a rest ih =>
      intro h
      have ha : Test.runAssert a res = none := h a (by simp)
      have hrest := ih (fun b hb => h b (by simp [hb]))
      simp [Test.assertLoop, ha, hrest]

theorem assertLoop_first_fail (res : Option JSResponse) (e : JSError) :
    ∀ (pre : List Expectation) (a : Expectation) (post : List Expectation),
      (∀ b ∈ pre, Test.runAssert b res = none) → Test.runAssert a res = some e →
      Test.assertLoop (pre ++ a :: post) res = (some e, pre.length + 1) := by
  intro pre
  induction pre with
  | nil =>
      intro a post _ ha
      simp [Test.assertLoop, ha]
  | cons b rest ih =>
      intro a post hpre ha
      have hb : Test.runAssert b res = none := hpre b (by simp)
      have htail := ih a post (fun x hx => hpre x (by simp [hx])) ha
      simp [Test.assertLoop, hb, htail]

/-- Claim C1: for every response, when the first M appended expectations pass
and the next one fails, `#assert` reports exactly that expectation's error and
evaluates exactly M+1 entries — the remaining expectations are never
evaluated. -/
theorem c1_short_circuit (pre : List Expectation) (a : Expectation)
    (post : List Expectation) (res : JSResponse) (resError : Option JSError) (e : JSError)
    (hpre : ∀ b ∈ pre, Test.runAssert b (some res) = none)
    (ha : Test.runAssert a (some res) = some e) :
    (Test.assert (pre ++ a :: post) resError (some res)).error = some e ∧
    (Test.assert (pre ++ a :: post) resError (some res)).evaluated = pre.length + 1 := by
  have hloop := assertLoop_first_fail (some res) e pre a post hpre ha
  constructor <;> simp [Test.assert, hloop]

/-- Claim C1 witness: a passing status expectation followed by a failing one
and a further (never-run) header expectation against a concrete 404 response. -/
theorem c1_short_circuit_witness :
    (Test.assert [Expectation.status 404, Expectation.status 200,
        Expectation.header "x" (HeaderExpected.str "y")] none (some resW)).error =
      some (newError "expected 200 \"OK\", got 404 \"Not Found\"") ∧
    (Test.assert [Expectation.status 404, Expectation.status 200,
        Expectation.header "x" (HeaderExpected.str "y")] none (some resW)).evaluated = 2 :=
  c1_short_circuit [Expectation.status 404] (Expectation.status 200)
    [Expectation.header "x" (HeaderExpected.str "y")] resW none
    (newError "expected 200 \"OK\", got 404 \"Not Found\"")
    (by intro b hb; rw [List.mem_singleton] at hb; subst hb; rfl)
    (by rfl)

/-- Claim C2: the error precedence of `#assert`: a transport error with no
response wins and no expectation is evaluated; otherwise the first failing
expectation in declaration order; otherwise any pre-existing transport error
even though every expectation passed; otherwise null. -/
theorem c2_error_precedence :
    (∀ (asserts : List Expectation) (e : JSError),
        (Test.assert asserts (some e) none).error = some e ∧
        (Test.assert asserts (some e) none).evaluated = 0) ∧
    (∀ (pre : List Expectation) (a : Expectation) (post : List Expectation)
        (r : JSResponse) (resError : Option JSError) (e : JSError),
        (∀ b ∈ pre, Test.runAssert b (some r) = none) →
        Test.runAssert a (some r) = some e →
        (Test.assert (pre ++ a :: post) resError (some r)).error = some e) ∧
    (∀ (asserts : List Expectation) (r : JSResponse) (e : JSError),
        (∀ b ∈ asserts, Test.runAssert b (some r) = none) →
        (Test.assert asserts (some e) (some r)).error = some e) ∧
    (∀ (asserts : List Expectation) (r : JSResponse),
        (∀ b ∈ asserts, Test.runAssert b (some r) = none) →
        (Test.assert asserts none (some r)).error = none) := by
  refine ⟨?_, ?_, ?_, ?_⟩
  · intro asserts e
    constructor <;> simp [Test.assert]
  · intro pre a post r resError e hpre ha
    have hloop := assertLoop_first_fail (some r) e pre a post hpre ha
    simp [Test.assert, hloop]
  · intro asserts r e h
    have hloop := assertLoop_all_pass (some r) asserts h
    simp [Test.assert, hloop]
  · intro asserts r h
    have hloop := assertLoop_all_pass (some r) asserts h
    simp [Test.assert, hloop]

/-- Claim C2 witness: the four precedence cases at concrete inputs — missing
response, a failing assertion beating a transport error, a surviving transport
error after passing assertions, and a clean pass delivering null. -/
theorem c2_error_precedence_witness :
    (Test.assert [Expectation.status 200] (some terr) none).error = some terr ∧
    (Test.assert [Expectation.status 200] (some terr) none).evaluated = 0 ∧
    (Test.assert [Expectation.status 200] (some terr) (some resW)).error =
      some (newError "expected 200 \"OK\", got 404 \"Not Found\"") ∧
    (Test.assert [Expectation.status 404] (some terr) (some resW)).error = some terr ∧
    (Test.assert [Expectation.status 404] none (some resW)).error = none :=
  ⟨(c2_error_precedence.1 [Expectation.status 200] terr).1,
   (c2_error_precedence.1 [Expectation.status 200] terr).2,
   c2_error_precedence.2.1 [] (Expectation.status 200) [] resW (some terr)
     (newError "expected 200 \"OK\", got 404 \"Not Found\"")
     (by intro b hb; exact absurd hb (List.not_mem_nil b)) (by rfl),
   c2_error_precedence.2.2.1 [Expectation.status 404] resW terr
     (by intro b hb; rw [List.mem_singleton] at hb; subst hb; rfl),
   c2_error_precedence.2.2.2 [Expectation.status 404] resW
     (by intro b hb; rw [List.mem_singleton] at hb; subst hb; rfl)⟩

/-- Claim C3: completion is idempotent with respect to sending — a second call
of the completion trigger on the same instance is a no-op, an untriggered
instance sends exactly one request, and a single call never sends more than
one. -/
theorem c3_idempotent_completion (t : Test.TestModel) :
    Test.endRequest (Test.endRequest t) = Test.endRequest t ∧
    (t.endCalled = false → (Test.endRequest t).sentCount = t.sentCount + 1) ∧
    (Test.endRequest t).sentCount ≤ t.sentCount + 1 := by
  cases h : t.endCalled <;>
    simp [Test.endRequest, Test.superEndSend, h]

/-- Claim C3 witness: two completion calls on a fresh instance send exactly
one request. -/
theorem c3_idempotent_completion_witness :
    Test.endRequest (Test.endRequest t0) = Test.endRequest t0 ∧
    (Test.endRequest t0).sentCount = 1 :=
  ⟨(c3_idempotent_completion t0).1, (c3_idempotent_completion t0).2.1 rfl⟩

/-- Claim C4 counterexample: a status mismatch (expecting 200 against a 404
response) produces an error that carries no `expected` and no `actual`
payload, so not every status-mismatch error carries them. -/
theorem c4_counterexample :
    (Test.assertStatus 200 resW).isSome = true ∧
    (Test.assertStatus 200 resW).map JSError.expected = some none ∧
    (Test.assertStatus 200 resW).map JSError.actual = some none :=
  ⟨rfl, rfl, rfl⟩

/-- Claim C4 (amended): every error produced by a structural (deep-equality)
body mismatch or a string/pattern body mismatch carries `expected` and
`actual` payload properties (and `showDiff`); an error produced by a status
mismatch carries only its message, with no `expected`/`actual` payload. -/
theorem c4_error_payloads :
    (∀ (b : BodyExpected) (res : JSResponse) (e : JSError),
        Test.assertBody b res = some e →
        e.expected.isSome = true ∧ e.actual.isSome = true ∧ e.showDiff = true) ∧
    (∀ (s : Int) (res : JSResponse) (e : JSError),
        Test.assertStatus s res = some e →
        e.expected = none ∧ e.actual = none) := by
  constructor
  · intro b res e h
    cases b with
    | pattern r =>
        simp only [Test.assertBody] at h
        split at h
        · exact Option.noConfusion h
        · injection h with h
          subst h
          exact ⟨rfl, rfl, rfl⟩
    | val v =>
        simp only [Test.assertBody] at h
        split at h
        · split at h
          · exact Option.noConfusion h
          · injection h with h
            subst h
            exact ⟨rfl, rfl, rfl⟩
        · split at h
          · exact Option.noConfusion h
          · injection h with h
            subst h
            exact ⟨rfl, rfl, rfl⟩
  · intro s res e h
    simp only [Test.assertStatus] at h
    split at h
    · injection h with h
      subst h
      exact ⟨rfl, rfl⟩
    · exact Option.noConfusion h

/-- Claim C4 witness: a concrete body mismatch carries both payloads, while a
concrete status mismatch carries neither. -/
theorem c4_error_payloads_witness :
    ((error "expected \"x\" response body, got \"nope\""
        (ErrPayload.val (JSVal.str "x")) (ErrPayload.val JSVal.null)).expected.isSome = true ∧
      (error "expected \"x\" response body, got \"nope\""
        (ErrPayload.val (JSVal.str "x")) (ErrPayload.val JSVal.null)).actual.isSome = true ∧
      (error "expected \"x\" response body, got \"nope\""
        (ErrPayload.val (JSVal.str "x")) (ErrPayload.val JSVal.null)).showDiff = true) ∧
    ((newError "expected 200 \"OK\", got 404 \"Not Found\"").expected = none ∧
      (newError "expected 200 \"OK\", got 404 \"Not Found\"").actual = none) :=
  ⟨c4_error_payloads.1 (BodyExpected.val (JSVal.str "x")) resW
      (error "expected \"x\" response body, got \"nope\""
        (ErrPayload.val (JSVal.str "x")) (ErrPayload.val JSVal.null)) (by rfl),
   c4_error_payloads.2 200 resW
      (newError "expected 200 \"OK\", got 404 \"Not Found\"") (by rfl)⟩

/-- Claim C5 counterexample: for an unidentifiable handle the thrown message
is not the claimed string — it carries the "superdeno is " leader in front of
it. -/
theorem c5_counterexample :
    (match Test.construct AppHandle.other "GET" "/" none false with
     | .error e => e.message
     | .ok _ => "") ≠ "unable to identify or create a valid test server" := by
  decide

/-- Claim C5 (amended): construction resolves the base URL by handle variant —
a string handle concatenates the path unchanged; a running server yields
scheme://host:port/path with https exactly when secure and host defaulting to
127.0.0.1; a not-yet-listening factory asks `listen` for port 0, is owned by
the instance, and has secure forced to false; any other handle throws a
configuration error whose message is "superdeno is " followed by "unable to
identify or create a valid test server", and no request is attempted. -/
theorem c5_construct_resolution :
    (∀ (a m path : String) (host : Option String) (secure : Bool),
        Test.construct (AppHandle.str a) m path host secure =
          Except.ok { url := a ++ path, method := upperCase m, redirects := 0,
                      ownedServer := false, listenRequests := [] }) ∧
    (∀ (port : Nat) (m path : String) (secure : Bool),
        Test.construct (AppHandle.server port) m path none secure =
          Except.ok { url := (if secure then "https" else "http") ++ "://127.0.0.1:" ++
                        toString port ++ path,
                      method := upperCase m, redirects := 0,
                      ownedServer := false, listenRequests := [] }) ∧
    (∀ (port : Nat) (m path h : String) (secure : Bool), h ≠ "" →
        Test.construct (AppHandle.server port) m path (some h) secure =
          Except.ok { url := (if secure then "https" else "http") ++ "://" ++ h ++ ":" ++
                        toString port ++ path,
                      method := upperCase m, redirects := 0,
                      ownedServer := false, listenRequests := [] }) ∧
    (∀ (port : Nat) (m path : String) (host : Option String) (secure : Bool),
        Test.construct (AppHandle.listener port) m path host secure =
          Except.ok { url := "http://" ++ hostOrDefault host ++ ":" ++ toString port ++ path,
                      method := upperCase m, redirects := 0,
                      ownedServer := true, listenRequests := [0] }) ∧
    (∀ (m path : String) (host : Option String) (secure : Bool),
        Test.construct AppHandle.other m path host secure =
          Except.error (newError
            ("superdeno is " ++ "unable to identify or create a valid test server"))) := by
  refine ⟨?_, ?_, ?_, ?_, ?_⟩
  · intro a m path host secure; rfl
  · intro port m path secure; cases secure <;> rfl
  · intro port m path h secure hne
    cases secure <;>
      simp [Test.construct, Test.serverAddress, hostOrDefault, hne]
  · intro port m path host secure; rfl
  · intro m path host secure; rfl

/-- Claim C5 witness: a running server on port 8080 with an explicit host and
secure set resolves to an https URL; the hypothesis that the host is nonempty
is discharged at "example.test". -/
theorem c5_construct_resolution_witness :
    Test.construct (AppHandle.server 8080) "get" "/hello" (some "example.test") true =
      Except.ok { url := "https://example.test:8080/hello", method := "GET", redirects := 0,
                  ownedServer := false, listenRequests := [] } :=
  c5_construct_resolution.2.2.1 8080 "get" "/hello" "example.test" true (by decide)

/-! Helper lemmas: triggering `end` from inside `expect` never touches the
pending expectation list or the url. -/

theorem maybeEnd_asserts (t : Test.TestModel) (arg : Option ExpectArg) :
    (Test.maybeEnd t arg).asserts = t.asserts := by
  unfold Test.maybeEnd Test.endRequest Test.superEndSend
  split
  · split <;> rfl
  · rfl

theorem maybeEnd_url (t : Test.TestModel) (arg : Option ExpectArg) :
    (Test.maybeEnd t arg).url = t.url := by
  unfold Test.maybeEnd Test.endRequest Test.superEndSend
  split
  · split <;> rfl
  · rfl

/-- The instance state after the possible `end(b)` / `end(c)` triggers inside
`expect`. -/
def afterEnds (t : Test.TestModel) (rest : List ExpectArg) : Test.TestModel :=
  Test.maybeEnd (Test.maybeEnd t (Test.headArg rest)) (Test.secondArg rest)

theorem afterEnds_asserts (t : Test.TestModel) (rest : List ExpectArg) :
    (afterEnds t rest).asserts = t.asserts := by
  unfold afterEnds
  rw [maybeEnd_asserts, maybeEnd_asserts]

theorem afterEnds_url (t : Test.TestModel) (rest : List ExpectArg) :
    (afterEnds t rest).url = t.url := by
  unfold afterEnds
  rw [maybeEnd_url, maybeEnd_url]

/-- Every `expect` call is a push of one or two expectations onto an instance
whose pending list and url are otherwise untouched. -/
theorem expect_shape (t : Test.TestModel) (a : ExpectArg) (rest : List ExpectArg) :
    ∃ (t2 : Test.TestModel) (new : List Expectation),
      t2.asserts = t.asserts ∧ t2.url = t.url ∧
      Test.expect t a rest = Test.pushAsserts t2 new := by
  cases a with
  | fn f => exact ⟨t, [Expectation.fn f], rfl, rfl, rfl⟩
  | num n =>
      simp only [Test.expect]
      split
      · exact ⟨afterEnds t rest,
          [Expectation.status n,
           Expectation.body (toBodyExpected ((Test.headArg rest).getD (ExpectArg.other JSVal.undefined)))],
          afterEnds_asserts t rest, afterEnds_url t rest, rfl⟩
      · exact ⟨afterEnds t rest, [Expectation.status n],
          afterEnds_asserts t rest, afterEnds_url t rest, rfl⟩
  | str s =>
      simp only [Test.expect]
      cases hv : headerValue (Test.headArg rest) with
      | none =>
          exact ⟨afterEnds t rest, [Expectation.body (toBodyExpected (ExpectArg.str s))],
            afterEnds_asserts t rest, afterEnds_url t rest, rfl⟩
      | some hvv =>
          exact ⟨afterEnds t rest,
            [Expectation.header (expectArgToString (ExpectArg.str s)) hvv],
            afterEnds_asserts t rest, afterEnds_url t rest, rfl⟩
  | pattern r =>
      simp only [Test.expect]
      cases hv : headerValue (Test.headArg rest) with
      | none =>
          exact ⟨afterEnds t rest, [Expectation.body (toBodyExpected (ExpectArg.pattern r))],
            afterEnds_asserts t rest, afterEnds_url t rest, rfl⟩
      | some hvv =>
          exact ⟨afterEnds t rest,
            [Expectation.header (expectArgToString (ExpectArg.pattern r)) hvv],
            afterEnds_asserts t rest, afterEnds_url t rest, rfl⟩
  | other v =>
      simp only [Test.expect]
      cases hv : headerValue (Test.headArg rest) with
      | none =>
          exact ⟨afterEnds t rest, [Expectation.body (toBodyExpected (ExpectArg.other v))],
            afterEnds_asserts t rest, afterEnds_url t rest, rfl⟩
      | some hvv =>
          exact ⟨afterEnds t rest,
            [Expectation.header (expectArgToString (ExpectArg.other v)) hvv],
            afterEnds_asserts t rest, afterEnds_url t rest, rfl⟩

/-- Claim C6: a numeric status with a second non-function argument appends
exactly two expectations, status-only first and then body-or-pattern; every
`expect` call only ever appends to the pending list (never replaces), and the
instance it returns is the same one (its url is untouched) for chaining. -/
theorem c6_expect_appends :
    (∀ (t : Test.TestModel) (n : Int) (arg : ExpectArg), argIsFn (some arg) = false →
        (Test.expect t (ExpectArg.num n) [arg]).asserts =
          t.asserts ++ [Expectation.status n, Expectation.body (toBodyExpected arg)]) ∧
    (∀ (t : Test.TestModel) (a : ExpectArg) (rest : List ExpectArg),
        ∃ new, (Test.expect t a rest).asserts = t.asserts ++ new) ∧
    (∀ (t : Test.TestModel) (a : ExpectArg) (rest : List ExpectArg),
        (Test.expect t a rest).url = t.url) := by
  refine ⟨?_, ?_, ?_⟩
  · intro t n arg h
    cases arg with
    | fn f => simp [argIsFn] at h
    | num m => rfl
    | str s => rfl
    | pattern r => rfl
    | other v => rfl
  · intro t a rest
    obtain ⟨t2, new, h2, _, hshape⟩ := expect_shape t a rest
    exact ⟨new, by rw [hshape]; simp [Test.pushAsserts, h2]⟩
  · intro t a rest
    obtain ⟨t2, new, _, hurl, hshape⟩ := expect_shape t a rest
    rw [hshape]
    simp [Test.pushAsserts, hurl]

/-- Claim C6 witness: `expect(200, "hello")` on a fresh instance appends the
status expectation and then the body expectation, leaving the url as it was. -/
theorem c6_expect_appends_witness :
    (Test.expect t0 (ExpectArg.num 200) [ExpectArg.str "hello"]).asserts =
      [Expectation.status 200, Expectation.body (BodyExpected.val (JSVal.str "hello"))] ∧
    (Test.expect t0 (ExpectArg.num 200) [ExpectArg.str "hello"]).url = t0.url :=
  ⟨c6_expect_appends.1 t0 200 (ExpectArg.str "hello") rfl,
   c6_expect_appends.2.2 t0 (ExpectArg.num 200) [ExpectArg.str "hello"]⟩

/-- Claim C7: a predicate expectation fails with exactly the Error instance it
returns; returning any non-Error value is success; and a behaviour that throws
a result is treated identically to one that returns the same result (so a
thrown Error fails identically to a returned Error). -/
theorem c7_predicate_expectation :
    (∀ (f : Option JSResponse → FnBehavior) (res : Option JSResponse) (e : JSError),
        f res = FnBehavior.ret (FnResult.errVal e) →
        Test.assertFunction f res = some e) ∧
    (∀ (f : Option JSResponse → FnBehavior) (res : Option JSResponse) (v : JSVal),
        f res = FnBehavior.ret (FnResult.plain v) →
        Test.assertFunction f res = none) ∧
    (∀ (f g : Option JSResponse → FnBehavior) (res : Option JSResponse) (r : FnResult),
        f res = FnBehavior.throws r → g res = FnBehavior.ret r →
        Test.assertFunction f res = Test.assertFunction g res) := by
  refine ⟨?_, ?_, ?_⟩ <;> intros <;> simp_all [Test.assertFunction]

/-- Claim C7 witness: returning `new Error("bad")` fails with that exact
error; returning `true` passes; throwing that same error fails identically to
returning it. -/
theorem c7_predicate_expectation_witness :
    Test.assertFunction (fun _ => FnBehavior.ret (FnResult.errVal (newError "bad")))
      (some resH) = some (newError "bad") ∧
    Test.assertFunction (fun _ => FnBehavior.ret (FnResult.plain (JSVal.bool true)))
      (some resH) = none ∧
    Test.assertFunction (fun _ => FnBehavior.throws (FnResult.errVal (newError "bad")))
      (some resH) =
      Test.assertFunction (fun _ => FnBehavior.ret (FnResult.errVal (newError "bad")))
        (some resH) :=
  ⟨c7_predicate_expectation.1 _ (some resH) (newError "bad") rfl,
   c7_predicate_expectation.2.1 _ (some resH) (JSVal.bool true) rfl,
   c7_predicate_expectation.2.2 _ _ (some resH) (FnResult.errVal (newError "bad")) rfl rfl⟩

/-- The shortcut equality check never fires for a RegExp expected value. -/
theorem shortcut_pattern (actual : HeaderActual) (r : RegExpM) :
    headerEqShortcut actual (HeaderExpected.pattern r) = false := by
  cases actual <;> rfl

/-- Claim C8: a header expectation looks the header up by lower-cased name
(case-insensitively, header names being stored lower-cased); an absent header
fails with the missing-header error; a RegExp expected value fails exactly
when the pattern does not match the actual rendering; a string expected value
fails exactly when it is not equal to the actual, an array actual being
stringified for the comparison; and the verdict depends only on the
case-folded header name. -/
theorem c8_header_expectation :
    (∀ (name : String) (value : HeaderExpected) (res : JSResponse),
        lookupHeader res.headers (lowerCase name) = none →
        Test.assertHeader name value res =
          some (newError ("expected \"" ++ name ++ "\" header field"))) ∧
    (∀ (name : String) (r : RegExpM) (res : JSResponse) (actual : HeaderActual),
        lookupHeader res.headers (lowerCase name) = some actual →
        (Test.assertHeader name (HeaderExpected.pattern r) res = none ↔
          r.test (headerToString actual) = true)) ∧
    (∀ (name s : String) (res : JSResponse) (v : String),
        lookupHeader res.headers (lowerCase name) = some (HeaderActual.str v) →
        (Test.assertHeader name (HeaderExpected.str s) res = none ↔ s = v)) ∧
    (∀ (name s : String) (res : JSResponse) (xs : List String),
        lookupHeader res.headers (lowerCase name) = some (HeaderActual.arr xs) →
        (Test.assertHeader name (HeaderExpected.str s) res = none ↔
          String.intercalate "," xs = s)) ∧
    (∀ (n1 n2 : String) (value : HeaderExpected) (res : JSResponse),
        lowerCase n1 = lowerCase n2 →
        (Test.assertHeader n1 value res).isNone = (Test.assertHeader n2 value res).isNone) := by
  refine ⟨?_, ?_, ?_, ?_, ?_⟩
  · intro name value res h
    simp [Test.assertHeader, h]
  · intro name r res actual h
    simp only [Test.assertHeader, h, shortcut_pattern]
    cases htest : r.test (headerToString actual) <;> simp [htest]
  · intro name s res v h
    by_cases hst : s = v <;> simp [Test.assertHeader, h, headerEqShortcut, hst]
  · intro name s res xs h
    by_cases hst : String.intercalate "," xs = s <;>
      simp [Test.assertHeader, h, headerEqShortcut, hst]
  · intro n1 n2 value res hcase
    simp only [Test.assertHeader]
    rw [hcase]
    cases hl : lookupHeader res.headers (lowerCase n2) with
    | none => rfl
    | some actual =>
        cases hq : headerEqShortcut actual value with
        | false =>
            cases value with
            | pattern r => cases htest : r.test (headerToString actual) <;> simp [hq, htest]
            | str s => simp [hq]
            | num m => simp [hq]
        | true => simp [hq]

/-- Claim C8 witness: a present, equal header passes under a differently-cased
query name; an absent header fails with the missing-header error. -/
theorem c8_header_expectation_witness :
    Test.assertHeader "Content-Type" (HeaderExpected.str "application/json") resH = none ∧
    Test.assertHeader "X-Missing" (HeaderExpected.str "v") resH =
      some (newError "expected \"X-Missing\" header field") :=
  ⟨(c8_header_expectation.2.2.1 "Content-Type" "application/json" resH
      "application/json" (by rfl)).mpr rfl,
   c8_header_expectation.1 "X-Missing" (HeaderExpected.str "v") resH (by rfl)⟩

/-- Draining the pending sham promises performs one drain step per promise and
never lets a rejection escape. -/
theorem drainLoop_ok (pending : List (Except JSError Unit)) :
    Test.drainLoop pending = JsOutcome.ok (pending.map (fun _ => PipeEvent.drain)) () := by
  induction pending with
  | nil => rfl
  | cons p ps ih =>
      cases p <;> simp [Test.drainLoop, Test.awaitPromise, Test.tryIgnore, jsSeq, ih]

/-- Claim C9: the completion pipeline runs response → owned-server close →
drain of outstanding transport promises → assertion evaluation → callback, in
that fixed order, and the error handed to the callback is exactly the
`#assert` verdict — independent of any errors raised by the drained promises,
which are swallowed. -/
theorem c9_pipeline_order (asserts : List Expectation) (resError : Option JSError)
    (res : Option JSResponse) (pending : List (Except JSError Unit)) :
    (Test.endContinuation asserts resError res pending).trace =
      [PipeEvent.response, PipeEvent.closeServer] ++
        pending.map (fun _ => PipeEvent.drain) ++
        [PipeEvent.assertStep, PipeEvent.callback] ∧
    (Test.endContinuation asserts resError res pending).cbError =
      (Test.assert asserts resError res).error ∧
    (Test.endContinuation asserts resError res pending).callbackRan = true := by
  simp [Test.endContinuation, Test.closeIfOwned, jsSeq, drainLoop_ok]

/-- Claim C10: `expect(status, undefined)` — a second argument position that
is present but undefined still appends a body expectation for undefined (the
argument position, not its definedness, decides), while `expect(status)`
appends only the status expectation; and the undefined-body expectation
passes exactly when the response text is undefined. -/
theorem c10_undefined_body (t : Test.TestModel) (n : Int) (r : JSResponse) :
    (Test.expect t (ExpectArg.num n) [ExpectArg.other JSVal.undefined]).asserts =
      t.asserts ++ [Expectation.status n, Expectation.body (BodyExpected.val JSVal.undefined)] ∧
    (Test.expect t (ExpectArg.num n) []).asserts = t.asserts ++ [Expectation.status n] ∧
    (Test.assertBody (BodyExpected.val JSVal.undefined) r = none ↔ r.text = JSVal.undefined) := by
  refine ⟨rfl, rfl, ?_⟩
  cases hr : r.text <;> simp [Test.assertBody, typeofIsObject, jsStrictEq, hr]
